import Mathlib

/-
Verification of the investigraph ETL pipeline core: a shallow embedding of
`investigraph/model/context.py` (TaskContext.emit, SourceContext.extract),
`investigraph/cache.py` and `investigraph/archive.py` (make_cache_key,
make_archive_key, archive_source) and `investigraph/pipeline.py` (run),
together with proofs of the specified properties.
-/

namespace Investigraph

/-- Values appearing in Python dicts (records, keyword arguments). -/
inductive PyVal where
  | none
  | bool (b : Bool)
  | int (n : Int)
  | str (s : String)
deriving DecidableEq, Repr

/-- Python truthiness for the values we model. -/
def truthy : PyVal → Bool
  | .none => false
  | .bool b => b
  | .int n => n != 0
  | .str s => !s.isEmpty

/-- A Python dict as an insertion-ordered association list. -/
abbrev AList (β : Type) := List (String × β)

/-- First value stored under a key (Python dict lookup). -/
def alistGet? {β : Type} (k : String) : AList β → Option β
  | [] => Option.none
  | (k', v) :: rest => if k' = k then some v else alistGet? k rest

/-- Python dict assignment: update in place when the key is present
(keeping its position), append at the end when it is absent. -/
def alistSet {β : Type} (k : String) (v : β) : AList β → AList β
  | [] => [(k, v)]
  | (k', v') :: rest => if k' = k then (k, v) :: rest else (k', v') :: alistSet k v rest

/-- Remove every entry stored under a key. -/
def removeKey {β : Type} (k : String) (l : AList β) : AList β :=
  l.filter fun kv => kv.1 != k

/-- Python `dict.pop(k, default)`: the stored value (or the default) together
with the dict without that key. -/
def pop {β : Type} (k : String) (d : β) (l : AList β) : β × AList β :=
  ((alistGet? k l).getD d, removeKey k l)

/-- A Python dict with arbitrary values (a record, or keyword arguments). -/
abbrev PyDict := AList PyVal

/-- Python falsiness of an optional string (`not s` for `str | None`):
true for `None` and for the empty string. -/
def strFalsy : Option String → Bool
  | Option.none => true
  | some s => s.isEmpty

-- ENTITY MODEL AND THE EMISSION PROTOCOL (`TaskContext.emit`)

/-- A FollowTheMoney statement entity as far as the emission protocol sees
it: an optional identifier and a set of property-value statements. The
schema and validation system of the entity model is out of scope. -/
structure StatementEntity where
  id : Option String
  props : Finset (String × String)
deriving DecidableEq

/-- Modelled from the spec: `ftmq.aggregate.merge`, the merge rule of the
underlying entity model (an external collaborator), merges two entities
with the same identifier by taking the union of their property values;
schema widening/narrowing is out of scope of this core. -/
def merge (a b : StatementEntity) : StatementEntity :=
  { id := a.id, props := a.props ∪ b.props }

/-- The error raised by `emit` for an entity without identifier
(`investigraph.exceptions.DataError`). -/
inductive DataError where
  | noEntityId
deriving DecidableEq

/-- `TaskContext.emit` (context.py lines 386-415): iterate over the given
proxies, skip `None`, raise `DataError` on a falsy identifier, and merge
into the accumulator keyed by identifier. Returns the accumulator as it
stands when the loop ends or the exception is raised (Python mutates
`self.proxies` in place, so the state at the raise is kept), together with
the raised error, if any. -/
def emit : AList StatementEntity → List (Option StatementEntity) →
    AList StatementEntity × Option DataError
  | acc, [] => (acc, Option.none)
  | acc, Option.none :: rest => emit acc rest
  | acc, some proxy :: rest =>
    if strFalsy proxy.id then (acc, some DataError.noEntityId)
    else
      let i := proxy.id.getD ""
      match alistGet? i acc with
      | some existing => emit (alistSet i (merge existing proxy) acc) rest
      | Option.none => emit (alistSet i proxy acc) rest

-- TAG KEYS AND EXTRACTION (`SourceContext.extract`, `DatasetContext.make_tag_key`)

/-- Modelled from the spec: `anystore.util.join_relpaths` (an external
collaborator) joins path parts into a relative path: slashes are stripped
from both ends of each part, empty parts are dropped, and the rest are
joined with a slash. -/
def stripSlashes (s : String) : String :=
  String.mk (((s.toList.dropWhile fun c => c = '/').reverse.dropWhile fun c => c = '/').reverse)

/-- Join path parts into a relative path (see `stripSlashes`). -/
def join_relpaths (parts : List String) : String :=
  String.intercalate "/" ((parts.map stripSlashes).filter fun s => !s.isEmpty)

/-- `DatasetContext.make_tag_key` (context.py lines 77-81): `None` as soon
as one part is falsy, otherwise the dataset name joined with the parts. A
part is an optional string because `Source.cache_key` may be `None`. -/
def make_tag_key (dataset : String) (parts : List (Option String)) : Option String :=
  if parts.any strFalsy then Option.none
  else some (join_relpaths (dataset :: parts.map fun p => p.getD ""))

/-- What the configured extract handler does when its generator is
consumed: the records it yields, in order, and the exception it raises
after the last of them, if any. -/
structure HandlerRun where
  records : List PyDict
  error : Option String
deriving DecidableEq

/-- The observable outcome of one fully-consumed (or
exception-interrupted) run of `SourceContext.extract`. -/
structure ExtractResult where
  records : List PyDict
  handlerInvoked : Bool
  skipLogged : Bool
  puts : List (String × Nat)
  raised : Option String
deriving DecidableEq

/-- `SourceContext.extract` (context.py lines 257-298). The incremental
skip check runs first: with incremental mode on, a non-`None` cache key
and an existing tag, nothing is yielded, the handler generator is never
started (so no fetch happens) and the skip is logged. Otherwise the inner
`_records` generator yields the handler's records, each with its
`__source__` key set, cut off after `limit` records; note the `for` loop
pulls the record after the cut before returning, so a handler exception
propagates exactly when the handler raises within the first `limit + 1`
pulls (always, when there is no limit). The completion tag (key and the
current timestamp) is put only when the sequence ends without an
exception. `now` stands for `datetime.now()`. -/
def extract (incremental : Bool) (dataset sourceName : String)
    (sourceCacheKey : Option String) (tags : List String) (now : Nat)
    (handler : HandlerRun) (limit : Option Nat) : ExtractResult :=
  let cache_key := make_tag_key dataset [some "extract", sourceCacheKey]
  let skip := incremental && (match cache_key with
    | some k => tags.contains k
    | Option.none => false)
  if skip then
    { records := [], handlerInvoked := false, skipLogged := true,
      puts := [], raised := Option.none }
  else
    let pulled := match limit with
      | Option.none => handler.records
      | some n => handler.records.take n
    let yielded := pulled.map (alistSet "__source__" (PyVal.str sourceName))
    let raised := match handler.error, limit with
      | Option.none, _ => Option.none
      | some e, Option.none => some e
      | some e, some n => if handler.records.length ≤ n then some e else Option.none
    let puts := match raised, cache_key with
      | Option.none, some k => [(k, now)]
      | _, _ => []
    { records := yielded, handlerInvoked := true, skipLogged := false,
      puts := puts, raised := raised }

-- CACHE KEY DERIVATION (`cache.py` and `archive.py` `make_cache_key`)

/-- The freshness metadata of a source (`Source.info()`, an
`anystore` `Stats`-like model): an optional lightweight etag/mtime-derived
signal, and its full JSON dump (`model_dump_json()`). -/
structure SourceInfo where
  cache_key : Option String
  json : String
deriving DecidableEq

/-- The tuple handed to `anystore.util.make_data_checksum`: the three
shapes appearing in the two `make_cache_key` implementations. `kwargs` is
the keyword-argument dict as it stands at the hash site (after the pops
performed so far). -/
inductive HashPayload where
  | withSignal (url signal : String) (args : List PyVal) (kwargs : PyDict)
  | withJson (url json : String) (args : List PyVal) (kwargs : PyDict)
  | urlOnly (url : String) (args : List PyVal) (kwargs : PyDict)
deriving DecidableEq

/-- A derived cache key: either the deterministic data checksum of a
payload, or the content checksum of the streamed source
(`open_virtual(url).checksum`). Distinct payloads stand for distinct
hashes. -/
inductive CacheKey where
  | dataHash (payload : HashPayload)
  | contentChecksum (url : String)
deriving DecidableEq

namespace Archive

/-- `archive.make_cache_key` (archive.py lines 44-56): pop the pacing
options, return `None` when caching is disabled for the call, otherwise
hash `(url, signal, args, kwargs)` when a lightweight freshness signal is
present, fall back to `(url, metadata json, args, kwargs)`, and hash
`(url, args, kwargs)` when only the url identifies the call. -/
def make_cache_key (url : String) (info : SourceInfo) (args : List PyVal)
    (kwargs : PyDict) : Option CacheKey :=
  let kwargs := (pop "delay" PyVal.none kwargs).2
  let kwargs := (pop "stealthy" PyVal.none kwargs).2
  let kwargs := (pop "timeout" PyVal.none kwargs).2
  let c := pop "cache" PyVal.none kwargs
  if c.1 = PyVal.bool false then Option.none
  else
    let u := pop "url_key_only" (PyVal.bool false) c.2
    if !truthy u.1 then
      match info.cache_key with
      | some sig => some (CacheKey.dataHash (HashPayload.withSignal url sig args u.2))
      | Option.none => some (CacheKey.dataHash (HashPayload.withJson url info.json args u.2))
    else some (CacheKey.dataHash (HashPayload.urlOnly url args u.2))

end Archive

namespace Cache

/-- `cache.make_cache_key` (cache.py lines 25-40): same as the archive
variant, except that in the no-signal branch it pops `use_checksum`
(default `True`) and, when truthy, returns the content checksum of the
streamed source instead of the metadata hash. -/
def make_cache_key (url : String) (info : SourceInfo) (args : List PyVal)
    (kwargs : PyDict) : Option CacheKey :=
  let kwargs := (pop "delay" PyVal.none kwargs).2
  let kwargs := (pop "stealthy" PyVal.none kwargs).2
  let kwargs := (pop "timeout" PyVal.none kwargs).2
  let c := pop "cache" PyVal.none kwargs
  if c.1 = PyVal.bool false then Option.none
  else
    let u := pop "url_key_only" (PyVal.bool false) c.2
    if !truthy u.1 then
      match info.cache_key with
      | some sig => some (CacheKey.dataHash (HashPayload.withSignal url sig args u.2))
      | Option.none =>
        let uc := pop "use_checksum" (PyVal.bool true) u.2
        if truthy uc.1 then some (CacheKey.contentChecksum url)
        else some (CacheKey.dataHash (HashPayload.withJson url info.json args uc.2))
    else some (CacheKey.dataHash (HashPayload.urlOnly url args u.2))

end Cache

-- THE ARCHIVE (`make_archive_key`, `archive_source`)

/-- A split URL as `urllib.parse.urlsplit` returns it. -/
structure Uri where
  scheme : String
  netloc : String
  path : String
  query : String
  fragment : String
deriving DecidableEq

/-- `make_archive_key` (archive.py lines 40-41): the URL components after
the scheme, joined as a relative path. -/
def make_archive_key (u : Uri) : String :=
  join_relpaths [u.netloc, u.path, u.query, u.fragment]

/-- The outcome of streaming the source via `open_virtual`: its content
checksum and bytes, or a fetch failure. -/
inductive FetchOutcome where
  | ok (checksum content : String)
  | failed
deriving DecidableEq

/-- The exception propagated by `archive_source` when `raise_on_error`. -/
inductive ArchiveError where
  | fetchFailed
  | writeFailed
deriving DecidableEq

/-- The observable outcome of `archive_source`: the returned key (`none`
when an exception propagated instead), the archive store afterwards,
whether an error was logged, and the propagated exception, if any. -/
structure ArchiveResult where
  key : Option String
  store : AList String
  errorLogged : Bool
  raised : Option ArchiveError
deriving DecidableEq

/-- `archive_source` (archive.py lines 60-91): compute the unfetched key,
stream the source, extend the key with the content checksum once it is
known, write the bytes under the extended key, and return the key as it
stands; a fetch or write failure propagates when `raise_on_error`,
otherwise it is logged and the key as it stands at the failure is
returned, with nothing written to the store. -/
def archive_source (u : Uri) (fetch : FetchOutcome) (writeOk : Bool)
    (raise_on_error : Bool) (store : AList String) : ArchiveResult :=
  let key := make_archive_key u
  match fetch with
  | FetchOutcome.failed =>
    if raise_on_error then
      { key := Option.none, store := store, errorLogged := false,
        raised := some ArchiveError.fetchFailed }
    else
      { key := some key, store := store, errorLogged := true, raised := Option.none }
  | FetchOutcome.ok checksum content =>
    let key := key ++ "/" ++ checksum
    if writeOk then
      { key := some key, store := alistSet key content store,
        errorLogged := false, raised := Option.none }
    else if raise_on_error then
      { key := Option.none, store := store, errorLogged := false,
        raised := some ArchiveError.writeFailed }
    else
      { key := some key, store := store, errorLogged := true, raised := Option.none }

-- THE RUN ENTRYPOINT (`pipeline.run`)

/-- The per-source and terminal stage invocations a run performs, in
order. -/
inductive RunEvent where
  | extractStage (source : String)
  | transformStage (source : String)
  | loadStage (source : String)
  | exportStage
deriving DecidableEq

/-- The dataset index model returned by the export handler (a `ftmq`
`Dataset`). -/
structure Dataset where
  name : String
deriving DecidableEq

/-- Modelled from the spec: a `Dataset` is a pydantic model instance,
which defines neither a boolean nor a length protocol, so Python
truthiness of any instance is `True`. -/
def Dataset.truthy (_ : Dataset) : Bool := true

/-- The extract, transform and load invocations `run` performs for each
source, in configuration order. -/
def stageEvents (sources : List String) : List RunEvent :=
  sources.flatMap fun s =>
    [RunEvent.extractStage s, RunEvent.transformStage s, RunEvent.loadStage s]

/-- `pipeline.run` (pipeline.py lines 27-55) as the sequence of stage
handler invocations it performs: per source extract, transform and load
(the load handler drains the lazy chain within its iteration), then
`index = ctx.export()`, then, when an index uri is configured,
`index = index or ctx.export()` - a second export invocation happens only
when the first result is falsy. `index` is the dataset the export handler
returned. -/
def run (sources : List String) (index_uri : Option String) (index : Dataset) :
    List RunEvent :=
  stageEvents sources ++ [RunEvent.exportStage] ++
    (match index_uri with
     | some _ => if index.truthy then [] else [RunEvent.exportStage]
     | Option.none => [])

-- HELPER LEMMAS ON ASSOCIATION LISTS

theorem strFalsy_some_ne {i : String} (hi : i ≠ "") : strFalsy (some i) = false := by
  simp only [strFalsy]
  exact Bool.eq_false_iff.mpr fun h => hi ((String.isEmpty_iff i).mp h)

theorem alistGet?_set_self {β : Type} (k : String) (v : β) (l : AList β) :
    alistGet? k (alistSet k v l) = some v := by
  induction l with
  | nil => simp [alistSet, alistGet?]
  | cons kv rest ih =>
    by_cases h : kv.1 = k
    · simp [alistSet, alistGet?, h]
    · simp [alistSet, alistGet?, h, ih]

theorem countKey_eq_zero {β : Type} (k : String) (l : AList β)
    (h : alistGet? k l = Option.none) : l.countP (fun kv => kv.1 == k) = 0 := by
  induction l with
  | nil => simp
  | cons kv rest ih =>
    by_cases hk : kv.1 = k
    · simp [alistGet?, hk] at h
    · simp [alistGet?, hk] at h
      simp [List.countP_cons, hk, ih h]

theorem countKey_set_absent {β : Type} (k : String) (v : β) (l : AList β)
    (h : alistGet? k l = Option.none) :
    (alistSet k v l).countP (fun kv => kv.1 == k) = 1 := by
  induction l with
  | nil => simp [alistSet]
  | cons kv rest ih =>
    by_cases hk : kv.1 = k
    · simp [alistGet?, hk] at h
    · simp [alistGet?, hk] at h
      simp [alistSet, hk, List.countP_cons, ih h]

theorem countKey_set_present {β : Type} (k : String) (v w : β) (l : AList β)
    (h : alistGet? k l = some w) :
    (alistSet k v l).countP (fun kv => kv.1 == k) = l.countP (fun kv => kv.1 == k) := by
  induction l with
  | nil => simp [alistGet?] at h
  | cons kv rest ih =>
    by_cases hk : kv.1 = k
    · simp [alistSet, hk, List.countP_cons]
    · simp [alistGet?, hk] at h
      simp [alistSet, hk, List.countP_cons, ih h]

theorem alistGet?_removeKey_ne {β : Type} (k k' : String) (l : AList β) (h : k ≠ k') :
    alistGet? k (removeKey k' l) = alistGet? k l := by
  induction l with
  | nil => rfl
  | cons kv rest ih =>
    by_cases hk : kv.1 = k'
    · have hkk : ¬ kv.1 = k := fun hkk => h (hkk.symm.trans hk)
      simp only [removeKey, List.filter_cons, hk] at ih ⊢
      simp only [bne_self_eq_false, Bool.false_eq_true, if_false, alistGet?, hkk, if_false]
      exact ih
    · simp only [removeKey, List.filter_cons] at ih ⊢
      have hbne : (kv.1 != k') = true := by simp [bne_iff_ne, hk]
      rw [hbne]
      simp only [if_true, alistGet?]
      by_cases hkk : kv.1 = k
      · simp [hkk]
      · simp [hkk, ih]

-- CLAIM THEOREMS

/-- C1: two entities sharing the same non-empty identifier, emitted into a
task in either order via one or two emit calls, leave exactly one entity
in the accumulator under that identifier, equal to their merge, the same
one in both orders. -/
theorem emit_merges_same_id (acc : AList StatementEntity) (a b : StatementEntity)
    (i : String) (ha : a.id = some i) (hb : b.id = some i) (hi : i ≠ "")
    (hacc : alistGet? i acc = Option.none) :
    (emit acc [some a, some b]).2 = Option.none ∧
    alistGet? i (emit acc [some a, some b]).1 = some (merge a b) ∧
    (emit acc [some a, some b]).1.countP (fun kv => kv.1 == i) = 1 ∧
    emit acc [some a, some b] = emit (emit acc [some a]).1 [some b] ∧
    alistGet? i (emit acc [some b, some a]).1 = some (merge a b) := by
  have hfa : strFalsy a.id = false := by rw [ha]; exact strFalsy_some_ne hi
  have hfb : strFalsy b.id = false := by rw [hb]; exact strFalsy_some_ne hi
  have hga : a.id.getD "" = i := by rw [ha]; rfl
  have hgb : b.id.getD "" = i := by rw [hb]; rfl
  have step1 : emit acc [some a, some b]
      = (alistSet i (merge a b) (alistSet i a acc), Option.none) := by
    simp [emit, hfa, hfb, hga, hgb, hacc, alistGet?_set_self]
  have step1' : emit acc [some b, some a]
      = (alistSet i (merge b a) (alistSet i b acc), Option.none) := by
    simp [emit, hfa, hfb, hga, hgb, hacc, alistGet?_set_self]
  have hcomm : merge b a = merge a b := by
    simp [merge, ha, hb, Finset.union_comm]
  refine ⟨by rw [step1], by rw [step1]; exact alistGet?_set_self .., ?_, ?_, ?_⟩
  · rw [step1]
    exact countKey_set_present i (merge a b) a (alistSet i a acc) (alistGet?_set_self ..)
      |>.trans (countKey_set_absent i a acc hacc)
  · rw [step1]
    simp [emit, hfa, hfb, hga, hgb, hacc, alistGet?_set_self]
  · rw [step1']
    rw [alistGet?_set_self, hcomm]

/-- Witness for C1 at concrete entities sharing identifier `x`. -/
theorem emit_merges_same_id_witness :
    (⟨some "x", {("p", "1")}⟩ : StatementEntity).id = some "x" ∧
    (⟨some "x", {("q", "2")}⟩ : StatementEntity).id = some "x" ∧
    ("x" : String) ≠ "" ∧
    alistGet? "x" ([] : AList StatementEntity) = Option.none ∧
    ((emit [] [some ⟨some "x", {("p", "1")}⟩, some ⟨some "x", {("q", "2")}⟩]).2 = Option.none ∧
      alistGet? "x" (emit [] [some ⟨some "x", {("p", "1")}⟩, some ⟨some "x", {("q", "2")}⟩]).1
        = some (merge ⟨some "x", {("p", "1")}⟩ ⟨some "x", {("q", "2")}⟩) ∧
      (emit [] [some ⟨some "x", {("p", "1")}⟩, some ⟨some "x", {("q", "2")}⟩]).1.countP
        (fun kv => kv.1 == "x") = 1 ∧
      emit [] [some ⟨some "x", {("p", "1")}⟩, some ⟨some "x", {("q", "2")}⟩]
        = emit (emit [] [some ⟨some "x", {("p", "1")}⟩]).1 [some ⟨some "x", {("q", "2")}⟩] ∧
      alistGet? "x" (emit [] [some ⟨some "x", {("q", "2")}⟩, some ⟨some "x", {("p", "1")}⟩]).1
        = some (merge ⟨some "x", {("p", "1")}⟩ ⟨some "x", {("q", "2")}⟩)) :=
  ⟨rfl, rfl, by decide, rfl,
    emit_merges_same_id [] ⟨some "x", {("p", "1")}⟩ ⟨some "x", {("q", "2")}⟩ "x"
      rfl rfl (by decide) rfl⟩

/-- C4: emitting an entity whose identifier is missing (None or empty)
raises `DataError` and leaves the accumulator unchanged. -/
theorem emit_no_id_fatal (acc : AList StatementEntity) (e : StatementEntity)
    (he : strFalsy e.id = true) :
    emit acc [some e] = (acc, some DataError.noEntityId) := by
  simp [emit, he]

/-- Witness for C4: an entity with identifier `None` emitted into a
non-empty accumulator. -/
theorem emit_no_id_fatal_witness :
    strFalsy (⟨Option.none, ∅⟩ : StatementEntity).id = true ∧
    emit [("a", ⟨some "a", ∅⟩)] [some ⟨Option.none, ∅⟩]
      = ([("a", ⟨some "a", ∅⟩)], some DataError.noEntityId) :=
  ⟨rfl, emit_no_id_fatal [("a", ⟨some "a", ∅⟩)] ⟨Option.none, ∅⟩ rfl⟩

/-- C2: with incremental mode on and the extraction tag for this source's
cache key already present in the tag store, `extract` yields zero records,
never starts the handler generator (so no fetch happens), writes no tag
and logs the skip. -/
theorem extract_incremental_skip (dataset sourceName : String)
    (sourceCacheKey : Option String) (tags : List String) (now : Nat)
    (handler : HandlerRun) (limit : Option Nat) (k : String)
    (hk : make_tag_key dataset [some "extract", sourceCacheKey] = some k)
    (htag : k ∈ tags) :
    (extract true dataset sourceName sourceCacheKey tags now handler limit).records = [] ∧
    (extract true dataset sourceName sourceCacheKey tags now handler limit).handlerInvoked
      = false ∧
    (extract true dataset sourceName sourceCacheKey tags now handler limit).skipLogged
      = true ∧
    (extract true dataset sourceName sourceCacheKey tags now handler limit).puts = [] := by
  simp [extract, hk, htag]

/-- Witness for C2 at a concrete tagged source. -/
theorem extract_incremental_skip_witness :
    make_tag_key "d" [some "extract", some "s"] = some "d/extract/s" ∧
    "d/extract/s" ∈ ["d/extract/s"] ∧
    ((extract true "d" "src" (some "s") ["d/extract/s"] 7
        ⟨[[("a", PyVal.int 1)]], Option.none⟩ Option.none).records = [] ∧
      (extract true "d" "src" (some "s") ["d/extract/s"] 7
        ⟨[[("a", PyVal.int 1)]], Option.none⟩ Option.none).handlerInvoked = false ∧
      (extract true "d" "src" (some "s") ["d/extract/s"] 7
        ⟨[[("a", PyVal.int 1)]], Option.none⟩ Option.none).skipLogged = true ∧
      (extract true "d" "src" (some "s") ["d/extract/s"] 7
        ⟨[[("a", PyVal.int 1)]], Option.none⟩ Option.none).puts = []) :=
  ⟨by decide, by decide,
    extract_incremental_skip "d" "src" (some "s") ["d/extract/s"] 7
      ⟨[[("a", PyVal.int 1)]], Option.none⟩ Option.none "d/extract/s" (by decide)
      (by decide)⟩

/-- C3: when the record sequence is interrupted by a handler exception, no
completion tag is put; every tag that is put carries the current timestamp
under the source's cache key and happens only on an exception-free run. -/
theorem extract_tag_only_on_success (incremental : Bool) (dataset sourceName : String)
    (sourceCacheKey : Option String) (tags : List String) (now : Nat)
    (handler : HandlerRun) (limit : Option Nat) :
    ((extract incremental dataset sourceName sourceCacheKey tags now handler
        limit).raised.isSome = true →
      (extract incremental dataset sourceName sourceCacheKey tags now handler
        limit).puts = []) ∧
    (∀ k t, (k, t) ∈ (extract incremental dataset sourceName sourceCacheKey tags now
        handler limit).puts →
      (extract incremental dataset sourceName sourceCacheKey tags now handler
        limit).raised = Option.none ∧
      t = now ∧ make_tag_key dataset [some "extract", sourceCacheKey] = some k) := by
  cases hck : make_tag_key dataset [some "extract", sourceCacheKey] with
  | none =>
    cases he : handler.error with
    | none => cases limit <;> simp [extract, hck, he]
    | some e =>
      cases limit with
      | none => simp [extract, hck, he]
      | some n =>
        by_cases hlen : handler.records.length ≤ n <;> simp [extract, hck, he, hlen]
  | some k0 =>
    by_cases hskip : incremental = true ∧ k0 ∈ tags
    · simp [extract, hck, hskip]
    · cases he : handler.error with
      | none => cases limit <;> simp [extract, hck, hskip, he]
      | some e =>
        cases limit with
        | none => simp [extract, hck, hskip, he]
        | some n =>
          by_cases hlen : handler.records.length ≤ n <;>
            simp [extract, hck, hskip, he, hlen]

/-- Witness for C3: a handler that raises after one record leads to a run
with the exception propagated and no tag put. -/
theorem extract_tag_only_on_success_witness :
    (extract false "d" "src" (some "s") [] 7 ⟨[[("a", PyVal.int 1)]], some "boom"⟩
      Option.none).raised.isSome = true ∧
    (extract false "d" "src" (some "s") [] 7 ⟨[[("a", PyVal.int 1)]], some "boom"⟩
      Option.none).puts = [] :=
  ⟨by decide,
    (extract_tag_only_on_success false "d" "src" (some "s") [] 7
      ⟨[[("a", PyVal.int 1)]], some "boom"⟩ Option.none).1 (by decide)⟩

/-- C10: a limit-truncated extraction that is consumed to completion still
puts the completion tag, so a subsequent incremental run skips the source
entirely although it was never fully extracted. -/
theorem extract_limit_still_tags (incremental : Bool) (dataset sourceName : String)
    (sck : String) (tags : List String) (now now2 : Nat) (handler handler2 : HandlerRun)
    (n : Nat) (k : String) (limit2 : Option Nat)
    (hk : make_tag_key dataset [some "extract", some sck] = some k)
    (hnew : k ∉ tags)
    (hcount : n < handler.records.length)
    (herr : handler.error = Option.none) :
    (extract incremental dataset sourceName (some sck) tags now handler
      (some n)).records.length = n ∧
    (extract incremental dataset sourceName (some sck) tags now handler
      (some n)).puts = [(k, now)] ∧
    (extract true dataset sourceName (some sck) (tags ++ [k]) now2 handler2
      limit2).records = [] ∧
    (extract true dataset sourceName (some sck) (tags ++ [k]) now2 handler2
      limit2).handlerInvoked = false := by
  refine ⟨?_, ?_, ?_, ?_⟩
  · simp [extract, hk, hnew, herr, Nat.min_eq_left hcount.le]
  · simp [extract, hk, hnew, herr]
  · simp [extract, hk]
  · simp [extract, hk]

/-- Witness for C10: a two-record source extracted with limit one is
tagged complete, and the incremental re-run yields nothing. -/
theorem extract_limit_still_tags_witness :
    make_tag_key "d" [some "extract", some "s"] = some "d/extract/s" ∧
    "d/extract/s" ∉ ([] : List String) ∧
    1 < (HandlerRun.mk [[("a", PyVal.int 1)], [("b", PyVal.int 2)]] Option.none).records.length ∧
    (HandlerRun.mk [[("a", PyVal.int 1)], [("b", PyVal.int 2)]] Option.none).error
      = Option.none ∧
    ((extract false "d" "src" (some "s") [] 7
        ⟨[[("a", PyVal.int 1)], [("b", PyVal.int 2)]], Option.none⟩ (some 1)).records.length
      = 1 ∧
      (extract false "d" "src" (some "s") [] 7
        ⟨[[("a", PyVal.int 1)], [("b", PyVal.int 2)]], Option.none⟩ (some 1)).puts
      = [("d/extract/s", 7)] ∧
      (extract true "d" "src" (some "s") ([] ++ ["d/extract/s"]) 8
        ⟨[[("a", PyVal.int 1)], [("b", PyVal.int 2)]], Option.none⟩ Option.none).records
      = [] ∧
      (extract true "d" "src" (some "s") ([] ++ ["d/extract/s"]) 8
        ⟨[[("a", PyVal.int 1)], [("b", PyVal.int 2)]], Option.none⟩ Option.none).handlerInvoked
      = false) :=
  ⟨by decide, by decide, by decide, by decide,
    extract_limit_still_tags false "d" "src" "s" [] 7 8
      ⟨[[("a", PyVal.int 1)], [("b", PyVal.int 2)]], Option.none⟩
      ⟨[[("a", PyVal.int 1)], [("b", PyVal.int 2)]], Option.none⟩ 1 "d/extract/s"
      Option.none (by decide) (by decide) (by decide) (by decide)⟩

theorem removeKey_cons_self {β : Type} (k : String) (v : β) (l : AList β) :
    removeKey k ((k, v) :: l) = removeKey k l := by
  simp [removeKey, List.filter_cons]

theorem removeKey_cons_ne {β : Type} (k k' : String) (v : β) (l : AList β)
    (h : k' ≠ k) : removeKey k ((k', v) :: l) = (k', v) :: removeKey k l := by
  simp [removeKey, List.filter_cons, h]

theorem alistGet?_popPacing (k : String) (kwargs : PyDict)
    (h1 : k ≠ "delay") (h2 : k ≠ "stealthy") (h3 : k ≠ "timeout") :
    alistGet? k (removeKey "timeout" (removeKey "stealthy" (removeKey "delay" kwargs)))
      = alistGet? k kwargs := by
  rw [alistGet?_removeKey_ne _ _ _ h3, alistGet?_removeKey_ne _ _ _ h2,
    alistGet?_removeKey_ne _ _ _ h1]

/-- The keyword arguments left for hashing after the recognized options
(the pacing options, `cache` and `url_key_only`) are popped. -/
def remainingKwargs (kwargs : PyDict) : PyDict :=
  removeKey "url_key_only" (removeKey "cache"
    (removeKey "timeout" (removeKey "stealthy" (removeKey "delay" kwargs))))

/-- C5 counterexample: with no lightweight freshness signal and default
options, `cache.make_cache_key` returns the content checksum of the
streamed source, not the deterministic hash of the locator, the full
metadata JSON and the call arguments. -/
theorem cache_key_fallback_cex :
    Cache.make_cache_key "http://x/f.csv" ⟨Option.none, "J"⟩ [] []
      = some (CacheKey.contentChecksum "http://x/f.csv") ∧
    Cache.make_cache_key "http://x/f.csv" ⟨Option.none, "J"⟩ [] []
      ≠ some (CacheKey.dataHash (HashPayload.withJson "http://x/f.csv" "J" [] [])) := by
  decide

/-- C5 amended: with no lightweight signal, `archive.make_cache_key`
falls back to the hash of (locator, metadata JSON, arguments);
`cache.make_cache_key` does so only when `use_checksum` is falsy, and by
default returns the content checksum of the streamed source instead. -/
theorem make_cache_key_fallback (url : String) (info : SourceInfo) (args : List PyVal)
    (kwargs : PyDict)
    (hsig : info.cache_key = Option.none)
    (hcache : (alistGet? "cache" kwargs).getD PyVal.none ≠ PyVal.bool false)
    (huko : truthy ((alistGet? "url_key_only" kwargs).getD (PyVal.bool false)) = false) :
    Archive.make_cache_key url info args kwargs
      = some (CacheKey.dataHash
          (HashPayload.withJson url info.json args (remainingKwargs kwargs))) ∧
    (truthy ((alistGet? "use_checksum" kwargs).getD (PyVal.bool true)) = true →
      Cache.make_cache_key url info args kwargs
        = some (CacheKey.contentChecksum url)) ∧
    (truthy ((alistGet? "use_checksum" kwargs).getD (PyVal.bool true)) = false →
      Cache.make_cache_key url info args kwargs
        = some (CacheKey.dataHash (HashPayload.withJson url info.json args
            (removeKey "use_checksum" (remainingKwargs kwargs))))) := by
  have hC := alistGet?_popPacing "cache" kwargs (by decide) (by decide) (by decide)
  have hU : alistGet? "url_key_only" (removeKey "cache"
      (removeKey "timeout" (removeKey "stealthy" (removeKey "delay" kwargs))))
        = alistGet? "url_key_only" kwargs := by
    rw [alistGet?_removeKey_ne _ _ _ (by decide)]
    exact alistGet?_popPacing "url_key_only" kwargs (by decide) (by decide) (by decide)
  have hUC : alistGet? "use_checksum" (removeKey "url_key_only" (removeKey "cache"
      (removeKey "timeout" (removeKey "stealthy" (removeKey "delay" kwargs)))))
        = alistGet? "use_checksum" kwargs := by
    rw [alistGet?_removeKey_ne _ _ _ (by decide), alistGet?_removeKey_ne _ _ _ (by decide)]
    exact alistGet?_popPacing "use_checksum" kwargs (by decide) (by decide) (by decide)
  refine ⟨?_, ?_, ?_⟩
  · simp only [Archive.make_cache_key, pop, hC]
    rw [if_neg hcache]
    simp only [hU, huko, hsig, Bool.not_false, if_true, remainingKwargs]
  · intro huc
    simp only [Cache.make_cache_key, pop, hC]
    rw [if_neg hcache]
    simp only [hU, huko, hsig, Bool.not_false, if_true, hUC, huc]
  · intro huc
    simp only [Cache.make_cache_key, pop, hC]
    rw [if_neg hcache]
    simp only [hU, huko, hsig, Bool.not_false, if_true, hUC, huc, remainingKwargs,
      Bool.false_eq_true, if_false]

/-- Witness for the amended C5 at a concrete no-signal source, covering
both the default (content checksum) and `use_checksum=False` (metadata
hash) branches of the cache variant. -/
theorem make_cache_key_fallback_witness :
    ((⟨Option.none, "J"⟩ : SourceInfo).cache_key = Option.none ∧
      (alistGet? "cache" [("use_checksum", PyVal.bool false)]).getD PyVal.none
        ≠ PyVal.bool false ∧
      truthy ((alistGet? "url_key_only"
        [("use_checksum", PyVal.bool false)]).getD (PyVal.bool false)) = false ∧
      truthy ((alistGet? "use_checksum"
        [("use_checksum", PyVal.bool false)]).getD (PyVal.bool true)) = false) ∧
    Archive.make_cache_key "u" ⟨Option.none, "J"⟩ [] [("use_checksum", PyVal.bool false)]
      = some (CacheKey.dataHash (HashPayload.withJson "u" "J" []
          (remainingKwargs [("use_checksum", PyVal.bool false)]))) ∧
    Cache.make_cache_key "u" ⟨Option.none, "J"⟩ [] [("use_checksum", PyVal.bool false)]
      = some (CacheKey.dataHash (HashPayload.withJson "u" "J" []
          (removeKey "use_checksum"
            (remainingKwargs [("use_checksum", PyVal.bool false)])))) :=
  ⟨⟨rfl, by decide, by decide, by decide⟩,
    (make_cache_key_fallback "u" ⟨Option.none, "J"⟩ []
      [("use_checksum", PyVal.bool false)] rfl (by decide) (by decide)).1,
    (make_cache_key_fallback "u" ⟨Option.none, "J"⟩ []
      [("use_checksum", PyVal.bool false)] rfl (by decide) (by decide)).2.2 (by decide)⟩

/-- C6: both cache key derivations are unchanged by the values of the
pacing options `delay`, `stealthy` and `timeout`, and both return `none`
when caching is disabled for the call (`cache=False`), so the call is
never looked up nor stored. -/
theorem make_cache_key_ignores_pacing (url : String) (info : SourceInfo)
    (args : List PyVal) (kwargs : PyDict) (d s t : PyVal) :
    Archive.make_cache_key url info args
        (("delay", d) :: ("stealthy", s) :: ("timeout", t) :: kwargs)
      = Archive.make_cache_key url info args kwargs ∧
    Cache.make_cache_key url info args
        (("delay", d) :: ("stealthy", s) :: ("timeout", t) :: kwargs)
      = Cache.make_cache_key url info args kwargs ∧
    ((alistGet? "cache" kwargs).getD PyVal.none = PyVal.bool false →
      Archive.make_cache_key url info args kwargs = Option.none ∧
      Cache.make_cache_key url info args kwargs = Option.none) := by
  have hred : removeKey "timeout" (removeKey "stealthy" (removeKey "delay"
      (("delay", d) :: ("stealthy", s) :: ("timeout", t) :: kwargs)))
      = removeKey "timeout" (removeKey "stealthy" (removeKey "delay" kwargs)) := by
    rw [removeKey_cons_self "delay" d (("stealthy", s) :: ("timeout", t) :: kwargs),
      removeKey_cons_ne "delay" "stealthy" s (("timeout", t) :: kwargs) (by decide),
      removeKey_cons_ne "delay" "timeout" t kwargs (by decide),
      removeKey_cons_self "stealthy" s (("timeout", t) :: removeKey "delay" kwargs),
      removeKey_cons_ne "stealthy" "timeout" t (removeKey "delay" kwargs) (by decide),
      removeKey_cons_self "timeout" t (removeKey "stealthy" (removeKey "delay" kwargs))]
  have hC := alistGet?_popPacing "cache" kwargs (by decide) (by decide) (by decide)
  refine ⟨?_, ?_, fun hcache => ⟨?_, ?_⟩⟩
  · simp only [Archive.make_cache_key, pop]
    rw [hred]
  · simp only [Cache.make_cache_key, pop]
    rw [hred]
  · simp only [Archive.make_cache_key, pop, hC]
    rw [if_pos hcache]
  · simp only [Cache.make_cache_key, pop, hC]
    rw [if_pos hcache]

/-- Witness for C6 at a concrete call with all three pacing options set
and at a concrete call with caching disabled. -/
theorem make_cache_key_ignores_pacing_witness :
    Archive.make_cache_key "u" ⟨some "etag", "J"⟩ []
        (("delay", PyVal.int 9) :: ("stealthy", PyVal.bool true)
          :: ("timeout", PyVal.int 30) :: [("cache", PyVal.bool false)])
      = Archive.make_cache_key "u" ⟨some "etag", "J"⟩ [] [("cache", PyVal.bool false)] ∧
    ((alistGet? "cache" [("cache", PyVal.bool false)]).getD PyVal.none
        = PyVal.bool false ∧
      Archive.make_cache_key "u" ⟨some "etag", "J"⟩ [] [("cache", PyVal.bool false)]
        = Option.none ∧
      Cache.make_cache_key "u" ⟨some "etag", "J"⟩ [] [("cache", PyVal.bool false)]
        = Option.none) :=
  ⟨(make_cache_key_ignores_pacing "u" ⟨some "etag", "J"⟩ [] [("cache", PyVal.bool false)]
      (PyVal.int 9) (PyVal.bool true) (PyVal.int 30)).1,
    by decide,
    (make_cache_key_ignores_pacing "u" ⟨some "etag", "J"⟩ [] [("cache", PyVal.bool false)]
      (PyVal.int 9) (PyVal.bool true) (PyVal.int 30)).2.2 (by decide)⟩

/-- A concrete remote locator, split as `urlsplit` returns it. -/
def uData : Uri := ⟨"http", "example.com", "/data.csv", "", ""⟩

/-- C7 counterexample: with `raise_on_error=False`, a write failure after
a successful fetch returns the key extended with the content checksum,
not the pre-computed key without the suffix. -/
theorem archive_source_write_failure_cex :
    (archive_source uData (FetchOutcome.ok "abc" "x") false false []).key
      = some "example.com/data.csv/abc" ∧
    make_archive_key uData = "example.com/data.csv" ∧
    (archive_source uData (FetchOutcome.ok "abc" "x") false false []).key
      ≠ some (make_archive_key uData) := by
  decide

/-- C7 amended: with `raise_on_error=False` a failure is logged and the
key as it stands at the failure is returned - without the checksum suffix
for a fetch failure, with it for a write failure - and the store gains no
entry; with `raise_on_error=True` the failure propagates and no key is
returned. -/
theorem archive_source_error_contract (u : Uri) (store : AList String)
    (ck content : String) :
    archive_source u FetchOutcome.failed false false store
      = { key := some (make_archive_key u), store := store,
          errorLogged := true, raised := Option.none } ∧
    archive_source u (FetchOutcome.ok ck content) false false store
      = { key := some (make_archive_key u ++ "/" ++ ck), store := store,
          errorLogged := true, raised := Option.none } ∧
    archive_source u FetchOutcome.failed false true store
      = { key := Option.none, store := store, errorLogged := false,
          raised := some ArchiveError.fetchFailed } ∧
    archive_source u (FetchOutcome.ok ck content) false true store
      = { key := Option.none, store := store, errorLogged := false,
          raised := some ArchiveError.writeFailed } :=
  ⟨rfl, rfl, rfl, rfl⟩

/-- C8: on a successful fetch and write, the returned archive key is the
relative path joined from the URL components after the scheme, followed
by a slash and the content checksum, and the content is stored under that
key. -/
theorem archive_source_success_key (u : Uri) (ck content : String) (roe : Bool)
    (store : AList String) :
    (archive_source u (FetchOutcome.ok ck content) true roe store).key
      = some (make_archive_key u ++ "/" ++ ck) ∧
    (archive_source u (FetchOutcome.ok ck content) true roe store).store
      = alistSet (make_archive_key u ++ "/" ++ ck) content store :=
  ⟨rfl, rfl⟩

theorem stageEvents_no_export (sources : List String) :
    RunEvent.exportStage ∉ stageEvents sources := by
  induction sources with
  | nil => simp [stageEvents]
  | cons s rest ih =>
    simp only [stageEvents, List.flatMap_cons, List.mem_append] at ih ⊢
    rintro (h | h)
    · simp at h
    · exact ih h

theorem stageEvents_mem_load (sources : List String) (s : String) (h : s ∈ sources) :
    RunEvent.loadStage s ∈ stageEvents sources := by
  induction sources with
  | nil => simp at h
  | cons x rest ih =>
    simp only [stageEvents, List.flatMap_cons, List.mem_append] at ih ⊢
    rcases List.mem_cons.mp h with h | h
    · exact Or.inl (by simp [h])
    · exact Or.inr (ih h)

/-- C9: a run invokes the export stage exactly once, and only after every
source's extract, transform and load events; every source's load event
precedes it. -/
theorem run_exports_once_after_loads (sources : List String)
    (index_uri : Option String) (index : Dataset) :
    (run sources index_uri index).count RunEvent.exportStage = 1 ∧
    run sources index_uri index = stageEvents sources ++ [RunEvent.exportStage] ∧
    RunEvent.exportStage ∉ stageEvents sources ∧
    ∀ s ∈ sources, RunEvent.loadStage s ∈ stageEvents sources := by
  have hne := stageEvents_no_export sources
  have hrun : run sources index_uri index
      = stageEvents sources ++ [RunEvent.exportStage] := by
    cases index_uri <;> simp [run, Dataset.truthy]
  refine ⟨?_, hrun, hne, fun s hs => stageEvents_mem_load sources s hs⟩
  rw [hrun, List.count_append]
  rw [List.count_eq_zero.mpr hne]
  rfl

/-- Witness for C9 at a concrete one-source run with an index uri
configured. -/
theorem run_exports_once_after_loads_witness :
    (run ["a"] (some "i") ⟨"d"⟩).count RunEvent.exportStage = 1 ∧
    "a" ∈ ["a"] ∧ RunEvent.loadStage "a" ∈ stageEvents ["a"] :=
  ⟨(run_exports_once_after_loads ["a"] (some "i") ⟨"d"⟩).1, by simp,
    (run_exports_once_after_loads ["a"] (some "i") ⟨"d"⟩).2.2.2 "a" (by simp)⟩

end Investigraph
